import Mathlib

/-!
Verification of the offline storage manager of the mental-health-pattern-app
mobile client (offline-storage.js): local admission of mood entries, the
pending/synced lifecycle, the seven-day pruning pass, and the sync pass
against the remote endpoint.

The JavaScript module is embedded shallowly: `AsyncStorage` becomes an
explicit `Store` value threaded through the operations, with an
`available` flag standing for whether the durable store can be
read/written (a failed AsyncStorage call throws; the module catches).
`Date.now()` becomes an explicit `now : Nat` argument (milliseconds).
The remote endpoint (`fetch`) becomes an oracle
`respond : MoodEntry -> ServerResponse` describing, per payload, the
outcome of the delivery attempt.
-/

/-- A mood entry as handed to `saveOfflineEntry`: an opaque domain payload
plus the `timestamp` field that the pruning pass later reads via
`new Date(entry.timestamp).getTime()` (modelled directly in ms). -/
structure MoodEntry where
  payload : String
  timestamp : Nat
deriving Repr, DecidableEq

/-- A record as persisted under `OFFLINE_ENTRIES_KEY`: the spread of the
original entry plus the tracking fields added at admission,
`offlineId: Date.now().toString()` and `pendingSync: true`. -/
structure StoredEntry where
  entry : MoodEntry
  offlineId : String
  pendingSync : Bool
deriving Repr, DecidableEq

/-- The durable key-value store: the array stored under
`OFFLINE_ENTRIES_KEY`, the scalar under `LAST_SYNC_KEY`, and a flag for
whether AsyncStorage calls succeed (false makes every get/set throw). -/
structure Store where
  available : Bool
  entries : List StoredEntry
  lastSync : Option Nat
deriving Repr, DecidableEq

/-- `AsyncStorage.getItem(OFFLINE_ENTRIES_KEY)` followed by the JSON
parse; throws when the store is unavailable, otherwise yields the list
(a missing key parses to the empty list, which the model folds into
`entries`). -/
def getItemEntries (st : Store) : Except String (List StoredEntry) :=
  if st.available then .ok st.entries else .error "storage unavailable"

/-- `AsyncStorage.setItem(OFFLINE_ENTRIES_KEY, ...)`. -/
def setItemEntries (l : List StoredEntry) (st : Store) : Except String Store :=
  if st.available then .ok { st with entries := l } else .error "storage unavailable"

/-- `AsyncStorage.setItem(LAST_SYNC_KEY, Date.now().toString())`. -/
def setLastSync (now : Nat) (st : Store) : Except String Store :=
  if st.available then .ok { st with lastSync := some now } else .error "storage unavailable"

/-- The record admitted for `entry` at time `now`:
`{...entry, offlineId: Date.now().toString(), pendingSync: true}`. -/
def mkStored (entry : MoodEntry) (now : Nat) : StoredEntry :=
  { entry := entry, offlineId := toString now, pendingSync := true }

/-- `saveOfflineEntry(entry)`: read the array, push the new record, write
the array back; returns `true`, or `false` when a storage call threw
(the catch branch). -/
def saveOfflineEntry (entry : MoodEntry) (now : Nat) (st : Store) : Bool × Store :=
  match getItemEntries st with
  | .error _ => (false, st)
  | .ok existingEntries =>
    match setItemEntries (existingEntries ++ [mkStored entry now]) st with
    | .error _ => (false, st)
    | .ok st1 => (true, st1)

/-- `getPendingOfflineEntries()`: the stored array filtered to
`entry.pendingSync`; the catch branch returns the empty list. -/
def getPendingOfflineEntries (st : Store) : List StoredEntry :=
  match getItemEntries st with
  | .error _ => []
  | .ok entries => entries.filter (fun e => e.pendingSync)

/-- The per-record marking step of `markEntriesAsSynced`:
`offlineIds.includes(entry.offlineId) ? {...entry, pendingSync:false} : entry`. -/
def markEntry (offlineIds : List String) (e : StoredEntry) : StoredEntry :=
  if offlineIds.contains e.offlineId then { e with pendingSync := false } else e

/-- The retention predicate of the pruning pass:
`entry.pendingSync || new Date(entry.timestamp).getTime() > sevenDaysAgo`.
The cutoff is an `Int` because `Date.now() - 7*24*60*60*1000` may be
negative in JavaScript arithmetic. -/
def keepAfterPrune (cutoff : Int) (e : StoredEntry) : Bool :=
  e.pendingSync || (e.entry.timestamp : Int) > cutoff

/-- The retention window hard-coded in `markEntriesAsSynced`:
`7 * 24 * 60 * 60 * 1000` milliseconds. -/
def sevenDaysMs : Nat := 7 * 24 * 60 * 60 * 1000

/-- `markEntriesAsSynced(offlineIds)` with the retention window made a
parameter (the source fixes it to seven days; see `markEntriesAsSynced`):
map the marking step over the array, filter with the retention predicate
at cutoff `now - window`, write the array back, stamp `LAST_SYNC_KEY`.
Returns `true`, or `false` when a storage call threw (the catch branch
leaves the store as it was). -/
def markEntriesAsSyncedWith (window : Nat) (offlineIds : List String) (now : Nat)
    (st : Store) : Bool × Store :=
  match getItemEntries st with
  | .error _ => (false, st)
  | .ok entries =>
    let marked := entries.map (markEntry offlineIds)
    let pruned := marked.filter (keepAfterPrune ((now : Int) - (window : Int)))
    match setItemEntries pruned st with
    | .error _ => (false, st)
    | .ok st1 =>
      match setLastSync now st1 with
      | .error _ => (false, st)
      | .ok st2 => (true, st2)

/-- `markEntriesAsSynced(offlineIds)` exactly as in the source, with the
seven-day retention window. -/
def markEntriesAsSynced (offlineIds : List String) (now : Nat) (st : Store) : Bool × Store :=
  markEntriesAsSyncedWith sevenDaysMs offlineIds now st

/-- Outcome of one `fetch` of a pending record to the server. -/
inductive ServerResponse where
  /-- `fetch` itself threw: network error or the 8s `AbortSignal` timeout. -/
  | transportError (msg : String)
  /-- `!response.ok`: a non-2xx HTTP status. -/
  | httpError (status : Nat)
  /-- A JSON body `{success, error?}` from a 2xx response. -/
  | ack (success : Bool) (err : Option String)
deriving Repr, DecidableEq

/-- JavaScript `a || b` on the optional `data.error` string: the empty
string is falsy and also falls back to the default. -/
def jsOr (s : Option String) (d : String) : String :=
  match s with
  | some s => if s.isEmpty then d else s
  | none => d

/-- The body of the per-entry try/catch inside `syncOfflineEntries`:
`none` means the record was acknowledged (its id joins `syncedIds`),
`some msg` is the caught error message counted as a failure. -/
def attemptEntry (respond : MoodEntry → ServerResponse) (e : StoredEntry) : Option String :=
  match respond e.entry with
  | .transportError msg => some msg
  | .httpError status => some ("Server returned " ++ toString status)
  | .ack true _ => none
  | .ack false err => some (jsOr err "Server reported failure")

/-- One error record pushed onto `results.errors`:
`{ entryId: entry.offlineId, error: error.message }`. -/
structure SyncError where
  entryId : String
  error : String
deriving Repr, DecidableEq

/-- The mutable loop state of `syncOfflineEntries`: the counters and the
`errors` and `syncedIds` arrays, all grown in FIFO order. -/
structure SyncAcc where
  synced : Nat
  failed : Nat
  errors : List SyncError
  syncedIds : List String
deriving Repr, DecidableEq

/-- One iteration of the `for (const entry of pendingEntries)` loop. -/
def syncStep (respond : MoodEntry → ServerResponse) (acc : SyncAcc) (e : StoredEntry) : SyncAcc :=
  match attemptEntry respond e with
  | none =>
    { acc with synced := acc.synced + 1, syncedIds := acc.syncedIds ++ [e.offlineId] }
  | some msg =>
    { acc with failed := acc.failed + 1, errors := acc.errors ++ [⟨e.offlineId, msg⟩] }

/-- The result object returned by `syncOfflineEntries`: `success`,
`synced`, `failed`, the per-record `errors` array, and the top-level
`error` string present only on the no-connection and process-error
paths. -/
structure SyncResult where
  success : Bool
  synced : Nat
  failed : Nat
  errors : List SyncError
  error : Option String
deriving Repr, DecidableEq

/-- `syncOfflineEntries(serverUrl)`: bail out with an error result when
the network is unreachable; otherwise snapshot the pending entries,
return `{success:true, synced:0, failed:0}` when there are none, else
attempt each in order, call `markEntriesAsSynced(syncedIds)` when any
succeeded, and flip `success` to false when any failed. `connected`
models `(await NetInfo.fetch()).isConnected`. -/
def syncOfflineEntries (connected : Bool) (respond : MoodEntry → ServerResponse)
    (now : Nat) (st : Store) : SyncResult × Store :=
  if !connected then
    ({ success := false, synced := 0, failed := 0, errors := [],
       error := some "No internet connection" }, st)
  else
    let pendingEntries := getPendingOfflineEntries st
    if pendingEntries.length = 0 then
      ({ success := true, synced := 0, failed := 0, errors := [], error := none }, st)
    else
      let acc := pendingEntries.foldl (syncStep respond) ⟨0, 0, [], []⟩
      let st1 := if acc.syncedIds.length > 0 then (markEntriesAsSynced acc.syncedIds now st).2 else st
      let success := if acc.failed > 0 then false else true
      ({ success := success, synced := acc.synced, failed := acc.failed,
         errors := acc.errors, error := none }, st1)

/-- `getPendingEntryCount()`. -/
def getPendingEntryCount (st : Store) : Nat :=
  (getPendingOfflineEntries st).length

/-- A sequence of `saveOfflineEntry` calls, each with its entry and its
`Date.now()` value, applied left to right. -/
def enqueueAll (ps : List (MoodEntry × Nat)) (st : Store) : Store :=
  ps.foldl (fun s p => (saveOfflineEntry p.1 p.2 s).2) st

/-- The entries processed by the loop that were acknowledged by the
server (the `data.success` branch), in FIFO order. -/
def succEntries (respond : MoodEntry → ServerResponse) (l : List StoredEntry) : List StoredEntry :=
  l.filter (fun e => (attemptEntry respond e).isNone)

/-- The entries whose delivery attempt failed (any caught error), in
FIFO order. -/
def failEntries (respond : MoodEntry → ServerResponse) (l : List StoredEntry) : List StoredEntry :=
  l.filter (fun e => !(attemptEntry respond e).isNone)

/-- The error record pushed for a failed entry. -/
def mkErrOf (respond : MoodEntry → ServerResponse) (e : StoredEntry) : SyncError :=
  ⟨e.offlineId, (attemptEntry respond e).getD ""⟩

lemma save_avail (entry : MoodEntry) (now : Nat) (st : Store) (h : st.available = true) :
    saveOfflineEntry entry now st
      = (true, { st with entries := st.entries ++ [mkStored entry now] }) := by
  simp [saveOfflineEntry, getItemEntries, setItemEntries, h]

lemma save_unavail (entry : MoodEntry) (now : Nat) (st : Store) (h : st.available = false) :
    saveOfflineEntry entry now st = (false, st) := by
  simp [saveOfflineEntry, getItemEntries, h]

lemma pending_avail (st : Store) (h : st.available = true) :
    getPendingOfflineEntries st = st.entries.filter (fun e => e.pendingSync) := by
  simp [getPendingOfflineEntries, getItemEntries, h]

lemma pending_unavail (st : Store) (h : st.available = false) :
    getPendingOfflineEntries st = [] := by
  simp [getPendingOfflineEntries, getItemEntries, h]

lemma mark_avail (window : Nat) (ids : List String) (now : Nat) (st : Store)
    (h : st.available = true) :
    markEntriesAsSyncedWith window ids now st
      = (true, ⟨true, ((st.entries.map (markEntry ids)).filter
            (keepAfterPrune ((now : Int) - (window : Int)))), some now⟩) := by
  simp only [markEntriesAsSyncedWith, getItemEntries, setItemEntries, setLastSync, h,
    if_true]

lemma mark_unavail (window : Nat) (ids : List String) (now : Nat) (st : Store)
    (h : st.available = false) :
    markEntriesAsSyncedWith window ids now st = (false, st) := by
  simp [markEntriesAsSyncedWith, getItemEntries, h]

lemma markEntry_offlineId (ids : List String) (e : StoredEntry) :
    (markEntry ids e).offlineId = e.offlineId := by
  unfold markEntry
  split <;> rfl

lemma markEntry_entry (ids : List String) (e : StoredEntry) :
    (markEntry ids e).entry = e.entry := by
  unfold markEntry
  split <;> rfl

lemma markEntry_pendingSync (ids : List String) (e : StoredEntry) :
    (markEntry ids e).pendingSync = (e.pendingSync && !(ids.contains e.offlineId)) := by
  unfold markEntry
  split <;> simp_all

lemma markEntry_eq_self_of_not_pending (ids : List String) (e : StoredEntry)
    (h : e.pendingSync = false) : markEntry ids e = e := by
  unfold markEntry
  split
  · cases e
    simp_all
  · rfl

lemma markEntry_eq_self_of_not_mem (ids : List String) (e : StoredEntry)
    (h : ids.contains e.offlineId = false) : markEntry ids e = e := by
  unfold markEntry
  split
  · next hc => rw [h] at hc; cases hc
  · rfl

lemma markEntry_idem (ids : List String) (e : StoredEntry) :
    markEntry ids (markEntry ids e) = markEntry ids e := by
  by_cases hc : ids.contains e.offlineId = true
  · have h1 : markEntry ids e = { e with pendingSync := false } := by
      unfold markEntry
      rw [if_pos hc]
    rw [h1]
    unfold markEntry
    rw [if_pos hc]
  · have hc' : ids.contains e.offlineId = false := by
      cases hcc : ids.contains e.offlineId
      · rfl
      · exact absurd hcc hc
    rw [markEntry_eq_self_of_not_mem ids e hc', markEntry_eq_self_of_not_mem ids e hc']

lemma contains_false_of_ne_true {ids : List String} {s : String}
    (h : ¬ids.contains s = true) : ids.contains s = false := by
  cases hc : ids.contains s
  · rfl
  · exact absurd hc h

lemma filter_pending_mark_prune (ids : List String) (cutoff : Int)
    (l : List StoredEntry) :
    ((l.map (markEntry ids)).filter (keepAfterPrune cutoff)).filter
        (fun e => e.pendingSync)
      = (l.filter (fun e => e.pendingSync)).filter
          (fun e => !(ids.contains e.offlineId)) := by
  rw [List.filter_filter, List.filter_filter, List.filter_map]
  have hpred : ∀ e ∈ l,
      ((fun a : StoredEntry => a.pendingSync && keepAfterPrune cutoff a) ∘ markEntry ids) e
        = (fun a : StoredEntry => !(ids.contains a.offlineId) && a.pendingSync) e := by
    intro e _
    by_cases hc : ids.contains e.offlineId = true
    · have hm : e.offlineId ∈ ids := by
        rw [← List.elem_iff]
        exact hc
      simp [Function.comp, markEntry_pendingSync, hm]
    · have hc' : ids.contains e.offlineId = false := contains_false_of_ne_true hc
      rw [Function.comp_apply, markEntry_eq_self_of_not_mem ids e hc']
      have hm : e.offlineId ∉ ids := by
        intro hmem
        have hcc : ids.contains e.offlineId = true := List.elem_iff.mpr hmem
        simp at hc'
        exact hc' hmem
      by_cases hp : e.pendingSync = true
      · simp [hp, hm, keepAfterPrune]
      · have hp' : e.pendingSync = false := by simp_all
        simp [hp', hm]
  rw [List.filter_congr hpred]
  have hid : ∀ x ∈ l.filter
      (fun a : StoredEntry => !(ids.contains a.offlineId) && a.pendingSync),
      markEntry ids x = x := by
    intro x hx
    rw [List.mem_filter] at hx
    have h2 := hx.2
    have hc' : ids.contains x.offlineId = false := by
      cases hc : ids.contains x.offlineId
      · rfl
      · rw [hc] at h2
        simp at h2
    exact markEntry_eq_self_of_not_mem ids x hc'
  rw [List.map_congr_left hid]
  simp

lemma pending_after_mark (ids : List String) (now : Nat) (st : Store) :
    getPendingOfflineEntries (markEntriesAsSynced ids now st).2
      = (getPendingOfflineEntries st).filter (fun e => !(ids.contains e.offlineId)) := by
  cases h : st.available
  · rw [markEntriesAsSynced, mark_unavail _ _ _ _ h, pending_unavail st h]
    rfl
  · rw [markEntriesAsSynced, mark_avail _ _ _ _ h, pending_avail st h]
    have h2 : getPendingOfflineEntries
        ⟨true, ((st.entries.map (markEntry ids)).filter
          (keepAfterPrune ((now : Int) - (sevenDaysMs : Int)))), some now⟩
        = ((st.entries.map (markEntry ids)).filter
            (keepAfterPrune ((now : Int) - (sevenDaysMs : Int)))).filter
            (fun e => e.pendingSync) := pending_avail _ rfl
    rw [h2, filter_pending_mark_prune]

lemma enqueueAll_avail : ∀ (ps : List (MoodEntry × Nat)) (st : Store),
    st.available = true →
    enqueueAll ps st
      = ⟨true, st.entries ++ ps.map (fun p => mkStored p.1 p.2), st.lastSync⟩ := by
  intro ps
  induction ps with
  | nil =>
    intro st h
    cases st with
    | mk a en ls =>
      subst h
      simp [enqueueAll]
  | cons p ps ih =>
    intro st h
    have hstep : (saveOfflineEntry p.1 p.2 st).2
        = { st with entries := st.entries ++ [mkStored p.1 p.2] } := by
      rw [save_avail _ _ _ h]
    have hrw : enqueueAll (p :: ps) st
        = enqueueAll ps { st with entries := st.entries ++ [mkStored p.1 p.2] } := by
      simp [enqueueAll, hstep]
    have h2 : ({ st with entries := st.entries ++ [mkStored p.1 p.2] } : Store).available
        = true := h
    rw [hrw, ih _ h2]
    simp

lemma syncLoop_spec (respond : MoodEntry → ServerResponse) :
    ∀ (l : List StoredEntry) (acc : SyncAcc),
      l.foldl (syncStep respond) acc
        = ⟨acc.synced + (succEntries respond l).length,
           acc.failed + (failEntries respond l).length,
           acc.errors ++ (failEntries respond l).map (mkErrOf respond),
           acc.syncedIds ++ (succEntries respond l).map (fun e => e.offlineId)⟩ := by
  intro l
  induction l with
  | nil =>
    intro acc
    simp [succEntries, failEntries]
  | cons e l ih =>
    intro acc
    cases ha : attemptEntry respond e with
    | none =>
      have h1 : (succEntries respond (e :: l)) = e :: succEntries respond l := by
        simp [succEntries, List.filter_cons, ha]
      have h2 : (failEntries respond (e :: l)) = failEntries respond l := by
        simp [failEntries, List.filter_cons, ha]
      have hstep : syncStep respond acc e
          = { acc with synced := acc.synced + 1,
                       syncedIds := acc.syncedIds ++ [e.offlineId] } := by
        simp [syncStep, ha]
      simp only [List.foldl_cons, hstep, ih, h1, h2, List.map_cons, List.length_cons]
      simp only [SyncAcc.mk.injEq]
      refine ⟨by omega, trivial, trivial, by simp⟩
    | some msg =>
      have h1 : (succEntries respond (e :: l)) = succEntries respond l := by
        simp [succEntries, List.filter_cons, ha]
      have h2 : (failEntries respond (e :: l)) = e :: failEntries respond l := by
        simp [failEntries, List.filter_cons, ha]
      have hstep : syncStep respond acc e
          = { acc with failed := acc.failed + 1,
                       errors := acc.errors ++ [⟨e.offlineId, msg⟩] } := by
        simp [syncStep, ha]
      have hme : mkErrOf respond e = ⟨e.offlineId, msg⟩ := by
        simp [mkErrOf, ha]
      simp only [List.foldl_cons, hstep, ih, h1, h2, List.map_cons, List.length_cons, hme]
      simp only [SyncAcc.mk.injEq]
      refine ⟨trivial, by omega, by simp, trivial⟩

lemma sync_connected_spec (respond : MoodEntry → ServerResponse) (now : Nat) (st : Store) :
    syncOfflineEntries true respond now st
      = ({ success := if (failEntries respond (getPendingOfflineEntries st)).length > 0
                      then false else true,
           synced := (succEntries respond (getPendingOfflineEntries st)).length,
           failed := (failEntries respond (getPendingOfflineEntries st)).length,
           errors := (failEntries respond (getPendingOfflineEntries st)).map (mkErrOf respond),
           error := none },
         if (succEntries respond (getPendingOfflineEntries st)).length > 0
         then (markEntriesAsSynced
                ((succEntries respond (getPendingOfflineEntries st)).map
                  (fun e => e.offlineId)) now st).2
         else st) := by
  unfold syncOfflineEntries
  by_cases hp : (getPendingOfflineEntries st).length = 0
  · have hnil : getPendingOfflineEntries st = [] := List.length_eq_zero.mp hp
    simp [hnil, succEntries, failEntries]
  · simp only [Bool.not_true, if_neg, hp, if_false, Bool.false_eq_true]
    rw [syncLoop_spec respond (getPendingOfflineEntries st) ⟨0, 0, [], []⟩]
    simp [List.length_map]

/-- The three-record store of the spec's sync scenario: three pending
records admitted in FIFO order with ids "1", "2", "3". -/
def scenarioStore : Store :=
  ⟨true, [⟨⟨"a", 1⟩, "1", true⟩, ⟨⟨"b", 2⟩, "2", true⟩, ⟨⟨"c", 3⟩, "3", true⟩], none⟩

/-- The endpoint behaviour of the scenario: acknowledge every payload
except "b" (record 2), which is rejected with
`{success: false, error: "boom"}`. -/
def scenarioRespond : MoodEntry → ServerResponse :=
  fun m => if m.payload = "b" then .ack false (some "boom") else .ack true none

/-- C1: for every sequence of enqueue (`saveOfflineEntry`) calls,
`getPendingOfflineEntries` returns the still-pending records in exactly
admission (FIFO) order, and after a `markEntriesAsSynced` pass the
remaining pending records are exactly the unmarked ones in their
original relative order, so a record that failed to sync keeps its
position. -/
theorem pending_fifo_order :
    (∀ (ps : List (MoodEntry × Nat)) (st : Store), st.available = true →
      getPendingOfflineEntries (enqueueAll ps st)
        = getPendingOfflineEntries st ++ ps.map (fun p => mkStored p.1 p.2))
    ∧ (∀ (ids : List String) (now : Nat) (st : Store),
      getPendingOfflineEntries (markEntriesAsSynced ids now st).2
        = (getPendingOfflineEntries st).filter (fun e => !(ids.contains e.offlineId))) := by
  constructor
  · intro ps st h
    rw [enqueueAll_avail ps st h, pending_avail _ rfl, pending_avail st h,
      List.filter_append]
    congr 1
    apply List.filter_eq_self.mpr
    intro a ha
    rcases List.mem_map.mp ha with ⟨p, _, rfl⟩
    rfl
  · exact fun ids now st => pending_after_mark ids now st

/-- Witness for C1 at a concrete input: one record enqueued into an
available empty store is listed pending. -/
theorem pending_fifo_order_witness :
    getPendingOfflineEntries (enqueueAll [(⟨"a", 1⟩, 2)] ⟨true, [], none⟩)
      = getPendingOfflineEntries ⟨true, [], none⟩
          ++ [((⟨"a", 1⟩ : MoodEntry), 2)].map (fun p => mkStored p.1 p.2) :=
  pending_fifo_order.1 [(⟨"a", 1⟩, 2)] ⟨true, [], none⟩ rfl

/-- C2: with three pending records where the endpoint acknowledges
records 1 and 3 and rejects record 2, the sync pass attempts all three
(no fail-fast), returns success=false with synced=2, failed=1 and a
single error identifying record 2, and afterwards exactly record 2 is
still pending. -/
theorem sync_partial_failure_scenario :
    syncOfflineEntries true scenarioRespond 100 scenarioStore
      = ({ success := false, synced := 2, failed := 1,
           errors := [⟨"2", "boom"⟩], error := none },
         ⟨true, [⟨⟨"a", 1⟩, "1", false⟩, ⟨⟨"b", 2⟩, "2", true⟩,
                 ⟨⟨"c", 3⟩, "3", false⟩], some 100⟩)
    ∧ getPendingOfflineEntries (syncOfflineEntries true scenarioRespond 100 scenarioStore).2
      = [⟨⟨"b", 2⟩, "2", true⟩] := by
  decide

/-- C10: when the network is unreachable at the moment of the call,
`syncOfflineEntries` returns the failure result
`{success:false, synced:0, failed:0, error:"No internet connection"}`
without consulting the endpoint (the oracle is arbitrary) and leaves the
store, including `lastSync`, untouched; no exception is raised. -/
theorem sync_offline_no_connection :
    ∀ (respond : MoodEntry → ServerResponse) (now : Nat) (st : Store),
      syncOfflineEntries false respond now st
        = ({ success := false, synced := 0, failed := 0, errors := [],
             error := some "No internet connection" }, st) := by
  intro respond now st
  rfl

/-- C3 counterexample: a record already marked synced whose `timestamp`
equals exactly `now - sevenDaysMs` — so it is NOT older than now minus
the retention window — is nevertheless removed by the pruning pass of
`markEntriesAsSynced` (the source keeps only strictly newer records). -/
theorem prune_boundary_counterexample :
    (markEntriesAsSynced [] 604800003 ⟨true, [⟨⟨"a", 3⟩, "x", false⟩], none⟩).2.entries = []
    ∧ ¬((3 : Int) < (604800003 : Int) - (sevenDaysMs : Int)) := by
  decide

/-- C3 (amended): for every retention-window value, the pruning performed
by `markEntriesAsSynced` never removes a record that is pending after the
marking step, regardless of its age, and a removed record is always one
marked synced whose timestamp is at least the window old
(`timestamp ≤ now - window`). -/
theorem prune_never_removes_pending :
    ∀ (window : Nat) (ids : List String) (now : Nat) (st : Store),
      st.available = true →
      (∀ e ∈ st.entries, (markEntry ids e).pendingSync = true →
        markEntry ids e ∈ (markEntriesAsSyncedWith window ids now st).2.entries)
      ∧ (∀ e ∈ st.entries,
          markEntry ids e ∉ (markEntriesAsSyncedWith window ids now st).2.entries →
          (markEntry ids e).pendingSync = false
          ∧ (e.entry.timestamp : Int) ≤ (now : Int) - (window : Int)) := by
  intro window ids now st h
  rw [mark_avail window ids now st h]
  constructor
  · intro e he hp
    apply List.mem_filter_of_mem
    · exact List.mem_map.mpr ⟨e, he, rfl⟩
    · simp [keepAfterPrune, hp]
  · intro e he hnot
    by_cases hk : keepAfterPrune ((now : Int) - (window : Int)) (markEntry ids e) = true
    · exact absurd (List.mem_filter_of_mem (List.mem_map.mpr ⟨e, he, rfl⟩) hk) hnot
    · rw [keepAfterPrune, markEntry_entry] at hk
      constructor
      · cases hpp : (markEntry ids e).pendingSync
        · rfl
        · rw [hpp] at hk
          simp at hk
      · by_contra hts
        rw [Bool.or_eq_true] at hk
        push_neg at hk
        exact hk.2 (by simp; omega)

/-- Witness for C3 at a concrete input: with window 5 at time 3, a
pending record survives the mark-and-prune pass. -/
theorem prune_never_removes_pending_witness :
    markEntry [] ⟨⟨"a", 1⟩, "x", true⟩
      ∈ (markEntriesAsSyncedWith 5 [] 3 ⟨true, [⟨⟨"a", 1⟩, "x", true⟩], none⟩).2.entries :=
  (prune_never_removes_pending 5 [] 3 ⟨true, [⟨⟨"a", 1⟩, "x", true⟩], none⟩ rfl).1
    ⟨⟨"a", 1⟩, "x", true⟩ (by simp) (by decide)

lemma markES_avail (ids : List String) (now : Nat) (st : Store) (h : st.available = true) :
    markEntriesAsSynced ids now st
      = (true, ⟨true, ((st.entries.map (markEntry ids)).filter
          (keepAfterPrune ((now : Int) - (sevenDaysMs : Int)))), some now⟩) :=
  mark_avail sevenDaysMs ids now st h

lemma markES_unavail (ids : List String) (now : Nat) (st : Store) (h : st.available = false) :
    markEntriesAsSynced ids now st = (false, st) :=
  mark_unavail sevenDaysMs ids now st h

/-- C4: `markEntriesAsSynced` is idempotent — running it again with the
same id set on the resulting store (at the same clock reading) returns
the identical result, including the `lastSync` marker; it reports via a
boolean (true exactly when the store is available), never an exception;
and an id set touching no pending record (already-synced or unknown ids)
yields the same outcome as the empty id set. -/
theorem markSynced_idempotent :
    ∀ (ids : List String) (now : Nat) (st : Store),
      markEntriesAsSynced ids now (markEntriesAsSynced ids now st).2
        = markEntriesAsSynced ids now st
      ∧ (markEntriesAsSynced ids now st).1 = st.available
      ∧ ((∀ e ∈ st.entries, e.pendingSync = true → ids.contains e.offlineId = false) →
          markEntriesAsSynced ids now st = markEntriesAsSynced [] now st) := by
  intro ids now st
  cases h : st.available
  · have h1 := markES_unavail ids now st h
    rw [h1]
    refine ⟨?_, rfl, ?_⟩
    · exact markES_unavail ids now st h
    · intro _
      exact (markES_unavail [] now st h).symm
  · have h1 := markES_avail ids now st h
    rw [h1]
    refine ⟨?_, rfl, ?_⟩
    · show markEntriesAsSynced ids now
        (⟨true, ((st.entries.map (markEntry ids)).filter
          (keepAfterPrune ((now : Int) - (sevenDaysMs : Int)))), some now⟩ : Store)
        = _
      rw [markES_avail ids now _ rfl]
      have hfix : ∀ x ∈ (st.entries.map (markEntry ids)).filter
          (keepAfterPrune ((now : Int) - (sevenDaysMs : Int))), markEntry ids x = x := by
        intro x hx
        have hx2 := List.mem_of_mem_filter hx
        rcases List.mem_map.mp hx2 with ⟨e, _, rfl⟩
        exact markEntry_idem ids e
      rw [List.map_congr_left hfix]
      have hmapid : ((st.entries.map (markEntry ids)).filter
          (keepAfterPrune ((now : Int) - (sevenDaysMs : Int)))).map (fun a => a)
          = (st.entries.map (markEntry ids)).filter
              (keepAfterPrune ((now : Int) - (sevenDaysMs : Int))) := by
        simp
      rw [hmapid, List.filter_filter]
      have hand : ∀ x ∈ st.entries.map (markEntry ids),
          (keepAfterPrune ((now : Int) - (sevenDaysMs : Int)) x
            && keepAfterPrune ((now : Int) - (sevenDaysMs : Int)) x)
          = keepAfterPrune ((now : Int) - (sevenDaysMs : Int)) x := by
        intro x _
        exact Bool.and_self _
      rw [List.filter_congr hand]
    · intro hids
      rw [markES_avail [] now st h]
      have hsame : ∀ e ∈ st.entries, markEntry ids e = markEntry [] e := by
        intro e he
        have h0 : markEntry [] e = e := markEntry_eq_self_of_not_mem [] e rfl
        rw [h0]
        cases hp : e.pendingSync
        · exact markEntry_eq_self_of_not_pending ids e hp
        · exact markEntry_eq_self_of_not_mem ids e (hids e he hp)
      rw [List.map_congr_left hsame]

/-- Witness for C4 at a concrete input: an id set matching no pending
record behaves like the empty id set. -/
theorem markSynced_idempotent_witness :
    markEntriesAsSynced ["9"] 7 ⟨true, [⟨⟨"a", 1⟩, "x", true⟩], none⟩
      = markEntriesAsSynced [] 7 ⟨true, [⟨⟨"a", 1⟩, "x", true⟩], none⟩ :=
  (markSynced_idempotent ["9"] 7 ⟨true, [⟨⟨"a", 1⟩, "x", true⟩], none⟩).2.2 (by decide)

/-- C5: two `saveOfflineEntry` admissions within the same clock
millisecond (`Date.now() = 5` for both) store two records carrying the
SAME `offlineId` "5" — the `Date.now().toString()` id is not unique,
contradicting the source's own "unique ID for tracking" comment. -/
theorem offlineId_duplicated_same_millisecond :
    ((saveOfflineEntry ⟨"b", 2⟩ 5
        (saveOfflineEntry ⟨"a", 1⟩ 5 ⟨true, [], none⟩).2).2).entries.map
      (fun e => e.offlineId) = ["5", "5"] := by
  decide

/-- C7 counterexample: with the durable store unavailable,
`saveOfflineEntry` catches the storage error and returns the plain value
`false` with the store untouched (no `StorageUnavailable` propagates),
`getPendingOfflineEntries` likewise returns `[]`; and on success the
call returns the boolean `true`, not the assigned localId. -/
theorem enqueue_error_swallowed_counterexample :
    saveOfflineEntry ⟨"a", 1⟩ 5 ⟨false, [], none⟩ = (false, ⟨false, [], none⟩)
    ∧ getItemEntries ⟨false, [], none⟩ = .error "storage unavailable"
    ∧ getPendingOfflineEntries ⟨false, [], none⟩ = []
    ∧ (saveOfflineEntry ⟨"a", 1⟩ 5 ⟨true, [], none⟩).1 = true :=
  ⟨rfl, rfl, rfl, rfl⟩

/-- C7 (amended): `saveOfflineEntry` on an available store persists a
PENDING record and returns the boolean true (it does not return the
localId); when the store is unavailable it returns false with the write
dropped, and `getPendingOfflineEntries` returns the empty list; neither
operation propagates an exception to the caller. -/
theorem enqueue_persists_or_reports_false :
    ∀ (e : MoodEntry) (now : Nat) (st : Store),
      (st.available = true →
        saveOfflineEntry e now st
          = (true, { st with entries := st.entries ++ [mkStored e now] })
        ∧ (mkStored e now).pendingSync = true)
      ∧ (st.available = false →
        saveOfflineEntry e now st = (false, st)
        ∧ getPendingOfflineEntries st = []) := by
  intro e now st
  constructor
  · intro h
    exact ⟨save_avail e now st h, rfl⟩
  · intro h
    exact ⟨save_unavail e now st h, pending_unavail st h⟩

/-- Witness for C7 (amended) at a concrete input. -/
theorem enqueue_persists_or_reports_false_witness :
    saveOfflineEntry ⟨"a", 1⟩ 5 ⟨true, [], none⟩
      = (true, ⟨true, [mkStored ⟨"a", 1⟩ 5], none⟩)
    ∧ (mkStored (⟨"a", 1⟩ : MoodEntry) 5).pendingSync = true :=
  (enqueue_persists_or_reports_false ⟨"a", 1⟩ 5 ⟨true, [], none⟩).1 rfl

lemma save_lastSync (e2 : MoodEntry) (n2 : Nat) (st : Store) :
    (saveOfflineEntry e2 n2 st).2.lastSync = st.lastSync := by
  cases h : st.available
  · rw [save_unavail _ _ _ h]
  · rw [save_avail _ _ _ h]

lemma markES_lastSync_cases (ids : List String) (now : Nat) (st : Store) :
    (markEntriesAsSynced ids now st).2.lastSync = st.lastSync
    ∨ (markEntriesAsSynced ids now st).2.lastSync = some now := by
  cases h : st.available
  · left
    rw [markES_unavail _ _ _ h]
  · right
    rw [markES_avail _ _ _ h]

lemma sync_result_synced (respond : MoodEntry → ServerResponse) (now : Nat) (st : Store) :
    (syncOfflineEntries true respond now st).1.synced
      = (succEntries respond (getPendingOfflineEntries st)).length := by
  rw [sync_connected_spec]

lemma sync_lastSync_cases (connected : Bool) (respond : MoodEntry → ServerResponse)
    (now : Nat) (st : Store) :
    (syncOfflineEntries connected respond now st).2.lastSync = st.lastSync
    ∨ (syncOfflineEntries connected respond now st).2.lastSync = some now := by
  cases connected
  · left
    rfl
  · rw [sync_connected_spec]
    by_cases hS : (succEntries respond (getPendingOfflineEntries st)).length > 0
    · show ((if (succEntries respond (getPendingOfflineEntries st)).length > 0
        then (markEntriesAsSynced
               ((succEntries respond (getPendingOfflineEntries st)).map
                 (fun e => e.offlineId)) now st).2
        else st)).lastSync = st.lastSync ∨ _
      rw [if_pos hS]
      exact markES_lastSync_cases _ now st
    · show ((if (succEntries respond (getPendingOfflineEntries st)).length > 0
        then (markEntriesAsSynced
               ((succEntries respond (getPendingOfflineEntries st)).map
                 (fun e => e.offlineId)) now st).2
        else st)).lastSync = st.lastSync ∨ _
      rw [if_neg hS]
      left
      rfl

/-- C8: the `lastSync` marker is written by a sync pass only when at
least one record was acknowledged (synced > 0), in which case some
previously pending record leaves the pending set (a PENDING to SYNCED
transition); under a monotone clock its value never moves backwards,
neither through a sync pass nor through `saveOfflineEntry` (which never
touches it) nor through `markEntriesAsSynced` itself. -/
theorem lastSync_update_policy :
    ∀ (connected : Bool) (respond : MoodEntry → ServerResponse) (now : Nat) (st : Store),
      ((syncOfflineEntries connected respond now st).1.synced = 0 →
        (syncOfflineEntries connected respond now st).2.lastSync = st.lastSync)
      ∧ ((syncOfflineEntries connected respond now st).2.lastSync ≠ st.lastSync →
          0 < (syncOfflineEntries connected respond now st).1.synced
          ∧ (syncOfflineEntries connected respond now st).2.lastSync = some now
          ∧ ∃ e, e ∈ getPendingOfflineEntries st
              ∧ e ∉ getPendingOfflineEntries (syncOfflineEntries connected respond now st).2)
      ∧ (∀ t t', st.lastSync = some t →
          (syncOfflineEntries connected respond now st).2.lastSync = some t' →
          t ≤ now → t ≤ t')
      ∧ (∀ (e2 : MoodEntry) (n2 : Nat), (saveOfflineEntry e2 n2 st).2.lastSync = st.lastSync)
      ∧ (∀ (ids : List String) (t t' : Nat), st.lastSync = some t →
          (markEntriesAsSynced ids now st).2.lastSync = some t' → t ≤ now → t ≤ t') := by
  intro connected respond now st
  refine ⟨?_, ?_, ?_, ?_, ?_⟩
  · intro h0
    cases connected
    · rfl
    · rw [sync_result_synced] at h0
      have hstore0 : (syncOfflineEntries true respond now st).2 = st := by
        rw [sync_connected_spec]
        show (if (succEntries respond (getPendingOfflineEntries st)).length > 0
          then _ else st) = st
        rw [if_neg (by omega)]
      rw [hstore0]
  · intro hne
    cases connected
    · exact absurd rfl hne
    · by_cases hS : (succEntries respond (getPendingOfflineEntries st)).length > 0
      · cases hav : st.available
        · exfalso
          have hp0 : getPendingOfflineEntries st = [] := pending_unavail st hav
          rw [succEntries, hp0] at hS
          simp at hS
        · have hstore : (syncOfflineEntries true respond now st).2
              = (markEntriesAsSynced
                  ((succEntries respond (getPendingOfflineEntries st)).map
                    (fun e => e.offlineId)) now st).2 := by
            rw [sync_connected_spec]
            show (if (succEntries respond (getPendingOfflineEntries st)).length > 0
              then _ else st) = _
            rw [if_pos hS]
          refine ⟨?_, ?_, ?_⟩
          · rw [sync_result_synced]
            omega
          · rw [hstore, markES_avail _ _ _ hav]
          · obtain ⟨e, heS⟩ := List.exists_mem_of_length_pos hS
            have heS' : e ∈ (getPendingOfflineEntries st).filter
                (fun x => (attemptEntry respond x).isNone) := heS
            refine ⟨e, List.mem_of_mem_filter heS', ?_⟩
            rw [hstore, pending_after_mark]
            intro hmem
            rw [List.mem_filter] at hmem
            have h2 := hmem.2
            have hcont : ((succEntries respond (getPendingOfflineEntries st)).map
                (fun e => e.offlineId)).contains e.offlineId = true :=
              List.elem_iff.mpr (List.mem_map.mpr ⟨e, heS, rfl⟩)
            rw [hcont] at h2
            simp at h2
      · exfalso
        apply hne
        rw [sync_connected_spec]
        show (if (succEntries respond (getPendingOfflineEntries st)).length > 0
          then _ else st).lastSync = st.lastSync
        rw [if_neg hS]
  · intro t t' ht ht' _
    rcases sync_lastSync_cases connected respond now st with hcase | hcase
    · rw [hcase, ht] at ht'
      injection ht' with hh
      omega
    · rw [hcase] at ht'
      injection ht' with hh
      omega
  · exact fun e2 n2 => save_lastSync e2 n2 st
  · intro ids t t' ht ht' hle
    rcases markES_lastSync_cases ids now st with hcase | hcase
    · rw [hcase, ht] at ht'
      injection ht' with hh
      omega
    · rw [hcase] at ht'
      injection ht' with hh
      omega

/-- Witness for C8 at a concrete input: a pass that syncs nothing (empty
pending set) leaves `lastSync` unchanged. -/
theorem lastSync_update_policy_witness :
    (syncOfflineEntries true scenarioRespond 100 ⟨true, [], none⟩).2.lastSync
      = (⟨true, [], none⟩ : Store).lastSync :=
  (lastSync_update_policy true scenarioRespond 100 ⟨true, [], none⟩).1 (by decide)

/-- C9 counterexample: with an empty pending set the sync pass does NOT
stay silent — it returns a full result report
`{success: true, synced: 0, failed: 0}` to the caller (the same record
shape every nonempty pass returns, flagged as a success), though the
store is left unchanged. -/
theorem sync_empty_emits_report_counterexample :
    syncOfflineEntries true scenarioRespond 100 ⟨true, [], none⟩
      = ({ success := true, synced := 0, failed := 0, errors := [], error := none },
         ⟨true, [], none⟩) := by
  decide

/-- C9 (amended): an empty pending set makes the pass a no-op on the
store but still yields the report `{success:true, synced:0, failed:0}`;
for any pending set every record is attempted exactly once
(synced + failed = pending count), the report's boolean success flag is
true exactly when no attempted record failed (all succeeded), and the
errors list carries one entry per failed record — so SUCCESS, PARTIAL
and FAILED are recoverable from (success, synced, failed). -/
theorem sync_report_classification :
    ∀ (respond : MoodEntry → ServerResponse) (now : Nat) (st : Store),
      (getPendingOfflineEntries st = [] →
        syncOfflineEntries true respond now st
          = ({ success := true, synced := 0, failed := 0, errors := [], error := none }, st))
      ∧ (syncOfflineEntries true respond now st).1.synced
          + (syncOfflineEntries true respond now st).1.failed
          = (getPendingOfflineEntries st).length
      ∧ ((syncOfflineEntries true respond now st).1.success = true
          ↔ (syncOfflineEntries true respond now st).1.failed = 0)
      ∧ (syncOfflineEntries true respond now st).1.errors.length
          = (syncOfflineEntries true respond now st).1.failed := by
  intro respond now st
  refine ⟨?_, ?_, ?_, ?_⟩
  · intro hnil
    rw [sync_connected_spec]
    simp [hnil, succEntries, failEntries]
  · rw [sync_connected_spec]
    show (succEntries respond (getPendingOfflineEntries st)).length
        + (failEntries respond (getPendingOfflineEntries st)).length
        = (getPendingOfflineEntries st).length
    rw [succEntries, failEntries]
    exact (List.length_eq_length_filter_add _).symm
  · rw [sync_connected_spec]
    show (if (failEntries respond (getPendingOfflineEntries st)).length > 0
        then false else true) = true
      ↔ (failEntries respond (getPendingOfflineEntries st)).length = 0
    by_cases hF : (failEntries respond (getPendingOfflineEntries st)).length > 0
    · rw [if_pos hF]
      constructor
      · intro hc
        cases hc
      · intro hc
        omega
    · rw [if_neg hF]
      constructor
      · intro _
        omega
      · intro _
        rfl
  · rw [sync_connected_spec]
    show ((failEntries respond (getPendingOfflineEntries st)).map (mkErrOf respond)).length
        = (failEntries respond (getPendingOfflineEntries st)).length
    exact List.length_map _ _

/-- Witness for C9 (amended) at a concrete input: a store whose only
record is already synced has an empty pending set, and the pass returns
the zero report unchanged. -/
theorem sync_report_classification_witness :
    syncOfflineEntries true scenarioRespond 100 ⟨true, [⟨⟨"a", 1⟩, "q", false⟩], none⟩
      = ({ success := true, synced := 0, failed := 0, errors := [], error := none },
         ⟨true, [⟨⟨"a", 1⟩, "q", false⟩], none⟩) :=
  (sync_report_classification scenarioRespond 100
    ⟨true, [⟨⟨"a", 1⟩, "q", false⟩], none⟩).1 (by decide)
